import Mathlib

/-!
Verification of the `watch-rs` repository's shell-session harness and
command-runner loop against its natural-language specification.

The development shallowly embeds:

* `src/models/watcher.rs` — the `Watcher` shell session: the global
  `CMD_END_MARKER` sentinel, `Watcher::new`, `exec_cmd_and_fetch_output`
  (read-until-sentinel on the merged output stream), and `kill`;
* `src/bin/watcher_tui/tui/mod.rs` — `run_watcher_thread`, the threaded
  command runner emitting `WatcherOutputEvent`s over a channel;
* `src/bin/watcher.rs` — the non-TUI `main` loop;
* `src/bin/watcher_tui/tui/query.rs` — the `QueryState` produced by
  `QueryTui::new`.

Process I/O is modelled by oracles: each `exec` call is given the byte
stream the shell writes in response (`ShellResponse`), and the runner
model is given, per call index, the outcome of that `exec`
(`ExecOutcome`).  Wall-clock time is modelled by natural numbers
(milliseconds); the runner's trace records every externally visible
action (exec calls, channel sends, sleeps, the subprocess kill) in
program order.
-/

/- ### Sentinel marker (src/models/watcher.rs lines 11-14) -/

/-- Alphanumeric character for a sampled value, as `rand`'s `Alphanumeric`
distribution: 26 uppercase, 26 lowercase, 10 digits. -/
def alphanumChar (n : Nat) : Char :=
  let r := n % 62
  if r < 26 then Char.ofNat (65 + r)
  else if r < 52 then Char.ofNat (97 + (r - 26))
  else Char.ofNat (48 + (r - 52))

/-- Modelled from the source: deterministic pseudo-random stream.  The source
seeds `StdRng::seed_from_u64(5)`; the concrete ChaCha-based stream is modelled
by a simple deterministic mixing function.  No claim below depends on the
individual characters — only on the marker being one fixed, program-wide,
100-character alphanumeric string computed from the fixed seed `5`. -/
def rngStream (seed i : Nat) : Nat :=
  (seed + 1) * 2654435761 + i * 40503

/-- The source's `static CMD_END_MARKER: Lazy<String>`: a lazily initialized
global, 100 alphanumeric characters sampled from `StdRng::seed_from_u64(5)`.
It is a single program-wide value, not regenerated per `Watcher`. -/
def CMD_END_MARKER : List Char :=
  (List.range 100).map (fun i => alphanumChar (rngStream 5 i))

/- ### Read-until-sentinel (rexpect `NBReader::read_until(ReadUntil::String _)`) -/

/-- Index of the first occurrence of `m` as a contiguous substring of `s`
(`none` if `m` never occurs).  This is the search `read_until` performs on the
incrementally buffered output stream. -/
def findMarker (m : List Char) : List Char → Option Nat
  | [] => if m.isPrefixOf [] then some 0 else none
  | a :: rest =>
    if m.isPrefixOf (a :: rest) then some 0
    else (findMarker m rest).map (· + 1)

/-- Bridge between the executable `isPrefixOf` check and the `<+:`
relation. -/
theorem isPrefixOf_eq_true_iff {l1 l2 : List Char} :
    l1.isPrefixOf l2 = true ↔ l1 <+: l2 := List.isPrefixOf_iff_prefix

/-- Whether `m` occurs as a contiguous substring of `s`. -/
def containsMarker (m s : List Char) : Bool :=
  (findMarker m s).isSome

/-- Error taxonomy of the spec (section 7); the embedding uses it as the
result type of the fallible operations. -/
inductive WatcherError
  | Timeout
  | StreamClosed
  | SpawnError
deriving DecidableEq

/-- Oracle for one `exec` call's shell output: the bytes the shell writes to
the merged stdout/stderr pipe before the reader would give up, and whether the
stream reached end-of-file after those bytes (subprocess died). -/
structure ShellResponse where
  bytes : List Char
  closed : Bool
deriving DecidableEq

/-- `NBReader::read_until` over `buf ++ resp.bytes`: return everything before
the first occurrence of the marker and leave the remainder buffered; if the
marker never appears, fail with `StreamClosed` when the stream ended,
`Timeout` otherwise. -/
def read_until (marker buf : List Char) (resp : ShellResponse) :
    Except WatcherError (List Char × List Char) :=
  let s := buf ++ resp.bytes
  match findMarker marker s with
  | some p => .ok (s.take p, s.drop (p + marker.length))
  | none => .error (if resp.closed then .StreamClosed else .Timeout)

/- ### Watcher (shell session), src/models/watcher.rs -/

/-- The `Watcher` shell session: its sentinel marker and the bytes already
read from the shell's output pipe but not yet consumed by a capture.  (The
subprocess and pipe handles themselves are modelled by the response
oracles.) -/
structure Watcher where
  marker : List Char
  buffer : List Char
deriving DecidableEq

/-- `exec_cmd_and_fetch_output` (src/models/watcher.rs lines 51-60): write the
command and a `printf` of the sentinel to the shell's stdin, then read the
merged output stream until the sentinel appears.  The shell's reply is
supplied by the `resp` oracle; the command text is threaded to mirror the
source signature. -/
def exec_cmd_and_fetch_output (w : Watcher) (command : String)
    (resp : ShellResponse) : Except WatcherError (List Char × Watcher) :=
  let _ := command
  match read_until w.marker w.buffer resp with
  | .error e => .error e
  | .ok (captured, rest) => .ok (captured, { w with buffer := rest })

/-- Redirection modes used by the spawn configuration. -/
inductive Redirection
  | Pipe
  | Merge
deriving DecidableEq

/-- The `PopenConfig` fields `Watcher::new` sets (src/models/watcher.rs
lines 28-38). -/
structure PopenConfigModel where
  stdout : Redirection
  stderr : Redirection
  stdin : Redirection
  env : List (String × String)
  detached : Bool
deriving DecidableEq

/-- The spawn configuration built by `Watcher::new`: piped stdout and stdin,
stderr merged into stdout, the current environment extended with
`LC_ALL=C`, and a detached subprocess. -/
def watcherPopenConfig (currentEnv : List (String × String)) : PopenConfigModel :=
  { stdout := .Pipe
    stderr := .Merge
    stdin := .Pipe
    env := currentEnv ++ [("LC_ALL", "C")]
    detached := true }

/-- The fixed initialization sequence `Watcher::new` runs through
`exec_cmd_and_fetch_output` (src/models/watcher.rs lines 43-46). -/
def INIT_COMMANDS : String :=
  "\n            shopt -s expand_aliases;\n            source ~/.bashrc;\n        "

/-- `Watcher::new` (src/models/watcher.rs lines 23-49): spawn the shell with
`watcherPopenConfig` (failure there is `SpawnError`), then run the fixed
initialization sequence through the same `exec_cmd_and_fetch_output` path as
every later command, propagating its error.  The session's marker is the
global `CMD_END_MARKER`, not a per-instance value.  `spawnFails` models
whether `Popen::create` fails; `initResp` is the shell's reply to the
initialization commands. -/
def Watcher.new (spawnFails : Bool) (initResp : ShellResponse) :
    Except WatcherError Watcher :=
  if spawnFails then .error .SpawnError
  else
    let w0 : Watcher := { marker := CMD_END_MARKER, buffer := [] }
    match exec_cmd_and_fetch_output w0 INIT_COMMANDS initResp with
    | .error e => .error e
    | .ok (_, w) => .ok w

/- ### Runner event types (src/bin/watcher_tui/tui/mod.rs lines 20-29) -/

/-- `WatcherIterationOutput`: iteration number and captured output. -/
structure WatcherIterationOutput where
  iteration : Nat
  output : String
deriving DecidableEq

/-- `WatcherOutputEvent`: the events the runner thread sends over the
channel. -/
inductive WatcherOutputEvent
  | SetupResult (res : WatcherIterationOutput)
  | IterationResult (res : WatcherIterationOutput)
  | End
deriving DecidableEq

/-- Outcome of one `exec_cmd_and_fetch_output` call as seen by the runner:
either the captured output together with the call's wall-clock duration (in
milliseconds), or a fatal error. -/
inductive ExecOutcome
  | ok (output : String) (dur : Nat)
  | err (e : WatcherError)
deriving DecidableEq

/-- Whether the outcome is a success. -/
def ExecOutcome.isOk : ExecOutcome → Bool
  | .ok _ _ => true
  | .err _ => false

/-- Captured output of a successful outcome (defaulting to `""`). -/
def ExecOutcome.out : ExecOutcome → String
  | .ok o _ => o
  | .err _ => ""

/-- Duration of an outcome (defaulting to `0`). -/
def ExecOutcome.dur : ExecOutcome → Nat
  | .ok _ d => d
  | .err _ => 0

/-- One externally visible action of the runner thread, in program order:
an `exec_cmd_and_fetch_output` call (with the command text and the model's
call index: `0` for the setup call, the iteration number for loop calls), a
channel send, the inter-iteration sleep, or the `watcher.kill()` call. -/
inductive RunnerAction
  | exec (command : String) (callIdx : Nat)
  | emit (e : WatcherOutputEvent)
  | sleep
  | kill
deriving DecidableEq

/-- Inputs of one `run_watcher_thread` run: the query state's command texts,
the cadence parameters, the time (milliseconds after the post-setup
checkpoint) at which `should_close_watcher` is set (`none`: never), and the
outcome oracle for each `exec` call. -/
structure RunConfig where
  setupCommands : String
  mainCommands : String
  interval : Nat
  watchDuration : Option Nat
  cancelAt : Option Nat
  exec : Nat → ExecOutcome

/-- `should_close_watcher.load(..)` at time `t`: the flag is monotone, set
from `cancelAt` on. -/
def RunConfig.cancelSet (cfg : RunConfig) (t : Nat) : Bool :=
  match cfg.cancelAt with
  | none => false
  | some c => decide (c ≤ t)

/-- The watch-duration break test (`duration < checkpoint.elapsed()`,
strict). -/
def RunConfig.durationExceeded (cfg : RunConfig) (t : Nat) : Bool :=
  match cfg.watchDuration with
  | none => false
  | some d => decide (d < t)

/-- The loop's post-iteration break condition: the source checks the
cancellation flag first and the watch duration second, both leading to the
same `break`, so they are combined disjunctively here. -/
def RunConfig.shouldBreak (cfg : RunConfig) (t : Nat) : Bool :=
  cfg.cancelSet t || cfg.durationExceeded t

/-- The main loop of `run_watcher_thread` (src/bin/watcher_tui/tui/mod.rs
lines 56-85), fuelled.  `t` is the elapsed time since the post-setup
checkpoint, `iter` the iteration counter.  Each pass increments the counter,
runs `exec` (`.unwrap()`: an error is a thread panic, reported as `some e`
with no further actions), sends `IterationResult`, then breaks on the
cancellation flag or on an exceeded watch duration, else sleeps `interval`.
`none` means the fuel ran out before the loop ended. -/
def loopRun (cfg : RunConfig) : Nat → Nat → Nat →
    Option (List RunnerAction × Option WatcherError)
  | 0, _, _ => none
  | fuel + 1, t, iter =>
    let i := iter + 1
    match cfg.exec i with
    | .err e => some ([.exec cfg.mainCommands i], some e)
    | .ok out dur =>
      let t' := t + dur
      let pass : List RunnerAction :=
        [.exec cfg.mainCommands i, .emit (.IterationResult ⟨i, out⟩)]
      if cfg.shouldBreak t' then some (pass, none)
      else
        match loopRun cfg fuel (t' + cfg.interval) i with
        | none => none
        | some (rest, ex) => some (pass ++ .sleep :: rest, ex)

/-- `run_watcher_thread` (src/bin/watcher_tui/tui/mod.rs lines 31-92): run
the setup commands through `exec` (unconditionally; `.unwrap()` panics on
error), send `SetupResult` with iteration `0`, take the checkpoint, run the
loop; after a normal loop exit send exactly one `End` and then call
`watcher.kill()`.  A panic (`some e`) ends the thread with no further
actions: no `End` is sent and `kill` is never called. -/
def run_watcher_thread (cfg : RunConfig) (fuel : Nat) :
    Option (List RunnerAction × Option WatcherError) :=
  match cfg.exec 0 with
  | .err e => some ([.exec cfg.setupCommands 0], some e)
  | .ok out _ =>
    let setupActs : List RunnerAction :=
      [.exec cfg.setupCommands 0, .emit (.SetupResult ⟨0, out⟩)]
    match loopRun cfg fuel 0 0 with
    | none => none
    | some (acts, some e) => some (setupActs ++ acts, some e)
    | some (acts, none) =>
      some (setupActs ++ acts ++ [.emit .End, .kill], none)

/- ### Non-TUI binary loop (src/bin/watcher.rs lines 94-154) -/

/-- Inputs of the `watcher` binary's `main` after `Watcher::new` succeeded:
the optional setup commands, the main command, cadence parameters, the time
at which an interrupt message becomes available on the signal channel, and
the `exec` outcome oracle (call index `0` is the setup call when present,
loop passes are `1, 2, ...`). -/
structure MainConfig where
  setupCmds : Option String
  command : String
  interval : Nat
  watchDuration : Option Nat
  interruptAt : Option Nat
  exec : Nat → ExecOutcome

/-- `interrupt_event_receiver.try_recv().is_ok()` at time `t`: a queued
interrupt message is available from `interruptAt` on. -/
def MainConfig.interruptReceived (cfg : MainConfig) (t : Nat) : Bool :=
  match cfg.interruptAt with
  | none => false
  | some c => decide (c ≤ t)

/-- The duration break test of the `main` loop (strict comparison). -/
def MainConfig.mainDurationExceeded (cfg : MainConfig) (t : Nat) : Bool :=
  match cfg.watchDuration with
  | none => false
  | some d => decide (d < t)

/-- The loop of `watcher.rs` `main` (lines 130-149): exec the command (`?`
propagates an error out of `main`, reported as `some e`, skipping everything
after the loop), then break on a received interrupt or an exceeded watch
duration, else sleep. -/
def mainLoop (cfg : MainConfig) : Nat → Nat → Nat →
    Option (List RunnerAction × Option WatcherError)
  | 0, _, _ => none
  | fuel + 1, t, iter =>
    let i := iter + 1
    match cfg.exec i with
    | .err e => some ([.exec cfg.command i], some e)
    | .ok _ dur =>
      let t' := t + dur
      if cfg.interruptReceived t' || cfg.mainDurationExceeded t' then
        some ([.exec cfg.command i], none)
      else
        match mainLoop cfg fuel (t' + cfg.interval) i with
        | none => none
        | some (rest, ex) => some (.exec cfg.command i :: .sleep :: rest, ex)

/-- `watcher.rs` `main` from the optional setup exec to the end (lines
122-153): exec the setup commands when present (`?` propagates), run the
loop, and call `watcher.kill()` only after a normal loop exit; an error
surfaces out of `main` with no `kill`. -/
def mainRun (cfg : MainConfig) (fuel : Nat) :
    Option (List RunnerAction × Option WatcherError) :=
  let withLoop : List RunnerAction → Option (List RunnerAction × Option WatcherError) :=
    fun pre =>
      match mainLoop cfg fuel 0 0 with
      | none => none
      | some (acts, some e) => some (pre ++ acts, some e)
      | some (acts, none) => some (pre ++ acts ++ [.kill], none)
  match cfg.setupCmds with
  | none => withLoop []
  | some sc =>
    match cfg.exec 0 with
    | .err e => some ([.exec sc 0], some e)
    | .ok _ _ => withLoop [.exec sc 0]

/- ### Query TUI state (src/bin/watcher_tui/tui/query.rs) -/

/-- Editing tab of the query TUI. -/
inductive QueryEditTab
  | SETUP
  | MAIN
deriving DecidableEq

/-- Running mode of the query TUI. -/
inductive QueryMode
  | NORMAL
  | EDITOR
  | SUBMIT
deriving DecidableEq

/-- `QueryState`: the command texts the query screen hands to the runner. -/
structure QueryState where
  setup_commands : String
  main_commands : String
deriving DecidableEq

/-- `QueryTui` (state portion). -/
structure QueryTui where
  state : QueryState
  editing_tab : QueryEditTab
  running_mode : QueryMode
deriving DecidableEq

/-- `QueryTui::new` (src/bin/watcher_tui/tui/query.rs lines 85-94): the main
commands default to the passed command text (or empty), the setup commands
are always initialized to the empty string; default tab is `MAIN`, mode is
`NORMAL`. -/
def QueryTui.new (commands : Option String) : QueryTui :=
  { state :=
      { main_commands := commands.getD ""
        setup_commands := "" }
    editing_tab := .MAIN
    running_mode := .NORMAL }

/- ### Trace observations -/

/-- Iteration number carried by an `IterationResult` send, if the action is
one. -/
def iterNumberOf : RunnerAction → Option Nat
  | .emit (.IterationResult r) => some r.iteration
  | _ => none

/-- Iteration numbers of the `IterationResult` events of a trace, in
emission order. -/
def iterNumbers (acts : List RunnerAction) : List Nat :=
  acts.filterMap iterNumberOf

/-- Call index of an `exec` action, if the action is one. -/
def execCallOf : RunnerAction → Option Nat
  | .exec _ i => some i
  | _ => none

/-- Call indices of the `exec` calls of a trace, in order. -/
def execCalls (acts : List RunnerAction) : List Nat :=
  acts.filterMap execCallOf

/-- Number of `End` events sent in a trace. -/
def endEmits (acts : List RunnerAction) : Nat :=
  (acts.filter (fun a => decide (a = .emit .End))).length

/-- Actions the loop body never performs: `SetupResult` sends, the `End`
send and the `kill` (those happen outside the loop). -/
def loopExternal : RunnerAction → Bool
  | .emit (.SetupResult _) => true
  | .emit .End => true
  | .kill => true
  | _ => false

/- ### Derived schedule of an error-free run -/

/-- Elapsed time (since the post-setup checkpoint) at which the loop pass
`iter + s + 1` finishes its `exec` and evaluates the break conditions, when
the loop is entered at time `t` with iteration counter `iter` and every
`exec` succeeds:  `s = 0` is the next pass, each further pass adds one
`interval` plus that pass's execution time. -/
def relCheck (cfg : RunConfig) : Nat → Nat → Nat → Nat
  | t, iter, 0 => t + (cfg.exec (iter + 1)).dur
  | t, iter, s + 1 =>
    relCheck cfg (t + (cfg.exec (iter + 1)).dur + cfg.interval) (iter + 1) s

/-- The two actions of a successful loop pass `i`. -/
def passActs (cfg : RunConfig) (i : Nat) : List RunnerAction :=
  [.exec cfg.mainCommands i,
   .emit (.IterationResult ⟨i, (cfg.exec i).out⟩)]

/-- Trace of `n` successful loop passes starting after iteration `iter`,
with sleeps between consecutive passes (the pass that breaks does not
sleep). -/
def loopTraceOk (cfg : RunConfig) : Nat → Nat → List RunnerAction
  | _, 0 => []
  | iter, 1 => passActs cfg (iter + 1)
  | iter, r + 2 =>
    passActs cfg (iter + 1) ++ .sleep :: loopTraceOk cfg (iter + 1) (r + 1)

/-- Trace of `r` successful loop passes followed by a pass whose `exec`
fails, starting after iteration `iter`. -/
def loopTraceErr (cfg : RunConfig) : Nat → Nat → List RunnerAction
  | iter, 0 => [.exec cfg.mainCommands (iter + 1)]
  | iter, r + 1 =>
    passActs cfg (iter + 1) ++ .sleep :: loopTraceErr cfg (iter + 1) r

deriving instance DecidableEq for Except

/- ### Lemmas about the sentinel search -/

/-- `containsMarker` is `false` exactly when `findMarker` finds nothing. -/
theorem containsMarker_eq_false_iff {m s : List Char} :
    containsMarker m s = false ↔ findMarker m s = none := by
  unfold containsMarker
  cases findMarker m s <;> simp

/-- A found position is an occurrence of the marker. -/
theorem findMarker_isPrefixOf {m s : List Char} {p : Nat}
    (h : findMarker m s = some p) : m <+: s.drop p := by
  induction s generalizing p with
  | nil =>
    simp only [findMarker] at h
    split at h
    · next hc =>
      cases h
      simpa using isPrefixOf_eq_true_iff.mp hc
    · cases h
  | cons a rest ih =>
    simp only [findMarker] at h
    split at h
    · next hc =>
      cases h
      simpa using isPrefixOf_eq_true_iff.mp hc
    · cases hf : findMarker m rest with
      | none => rw [hf] at h; cases h
      | some q =>
        rw [hf] at h
        simp only [Option.map_some', Option.some.injEq] at h
        subst h
        simpa using ih hf

/-- A found position is the first occurrence: no earlier occurrence exists. -/
theorem findMarker_min {m s : List Char} {p : Nat}
    (h : findMarker m s = some p) : ∀ q < p, ¬ m <+: s.drop q := by
  induction s generalizing p with
  | nil =>
    intro q hq
    simp only [findMarker] at h
    split at h
    · cases h; omega
    · cases h
  | cons a rest ih =>
    intro q hq
    simp only [findMarker] at h
    split at h
    · cases h; omega
    · next hc =>
      cases hf : findMarker m rest with
      | none => rw [hf] at h; cases h
      | some r =>
        rw [hf] at h
        simp only [Option.map_some', Option.some.injEq] at h
        subst h
        cases q with
        | zero =>
          intro hpre
          exact hc (isPrefixOf_eq_true_iff.mpr (by simpa using hpre))
        | succ q' =>
          simpa using ih hf q' (by omega)

/-- `findMarker` returns `none` exactly when the marker occurs nowhere. -/
theorem findMarker_eq_none_iff {m s : List Char} :
    findMarker m s = none ↔ ∀ q, ¬ m <+: s.drop q := by
  induction s with
  | nil =>
    simp only [findMarker]
    constructor
    · intro h q
      split at h
      · cases h
      · next hc =>
        intro hpre
        exact hc (isPrefixOf_eq_true_iff.mpr (by simpa using hpre))
    · intro hq
      rw [if_neg]
      intro hc
      exact hq 0 (by simpa using isPrefixOf_eq_true_iff.mp hc)
  | cons a rest ih =>
    simp only [findMarker]
    constructor
    · intro h q
      split at h
      · cases h
      · next hc =>
        cases q with
        | zero =>
          intro hpre
          exact hc (isPrefixOf_eq_true_iff.mpr (by simpa using hpre))
        | succ q' =>
          have hn : findMarker m rest = none := by
            cases hf : findMarker m rest with
            | none => rfl
            | some r => rw [hf] at h; cases h
          simpa using ih.mp hn q'
    · intro hq
      rw [if_neg]
      · rw [ih.mpr (fun q => by simpa using hq (q + 1))]
        rfl
      · intro hc
        exact hq 0 (by simpa using isPrefixOf_eq_true_iff.mp hc)

/-- An occurrence together with minimality determines `findMarker`. -/
theorem findMarker_eq_some_of {m s : List Char} {p : Nat}
    (hp : m <+: s.drop p) (hmin : ∀ q < p, ¬ m <+: s.drop q) :
    findMarker m s = some p := by
  induction s generalizing p with
  | nil =>
    cases p with
    | zero =>
      simp only [findMarker]
      rw [if_pos (isPrefixOf_eq_true_iff.mpr (by simpa using hp))]
    | succ p' =>
      exact absurd (by simpa using hp)
        (by simpa using hmin 0 (Nat.succ_pos _))
  | cons a rest ih =>
    cases p with
    | zero =>
      simp only [findMarker]
      rw [if_pos (isPrefixOf_eq_true_iff.mpr (by simpa using hp))]
    | succ p' =>
      simp only [findMarker]
      rw [if_neg (fun hc =>
        hmin 0 (Nat.succ_pos _) (by simpa using isPrefixOf_eq_true_iff.mp hc))]
      rw [ih (by simpa using hp) (fun q hq => by simpa using hmin (q + 1) (by omega))]
      rfl

/-- The text before the first occurrence of a nonempty marker does not itself
contain the marker. -/
theorem findMarker_take_eq_none {m s : List Char} {p : Nat}
    (hm : m ≠ []) (h : findMarker m s = some p) :
    findMarker m (s.take p) = none := by
  rw [findMarker_eq_none_iff]
  intro q hpre
  rw [List.drop_take] at hpre
  have h2 := List.prefix_take_iff.mp hpre
  by_cases hq : q < p
  · exact findMarker_min h q hq h2.1
  · have hlen : m.length = 0 := by
      have := h2.2
      omega
    exact hm (List.length_eq_zero.mp hlen)

/-- If the marker does not occur in `out` padded with all but the marker's
last character (ruling out occurrences straddling the boundary), then the
first occurrence of the marker in `out ++ m ++ rest` is exactly at the end of
`out`. -/
theorem findMarker_append_marker {m out rest : List Char}
    (hm : m ≠ []) (hno : containsMarker m (out ++ m.dropLast) = false) :
    findMarker m (out ++ (m ++ rest)) = some out.length := by
  have hmlen : 0 < m.length := List.length_pos.mpr hm
  have hnone := containsMarker_eq_false_iff.mp hno
  rw [findMarker_eq_none_iff] at hnone
  apply findMarker_eq_some_of
  · rw [List.drop_left]
    exact List.prefix_append m rest
  · intro q hq hpre
    apply hnone q
    have htake : out ++ m.dropLast
        = (out ++ (m ++ rest)).take (out.length + (m.length - 1)) := by
      rw [List.take_append, List.take_append_of_le_length (by omega),
        List.dropLast_eq_take]
    rw [htake, List.drop_take]
    rw [List.prefix_take_iff]
    exact ⟨hpre, by omega⟩

/-- Successful `read_until` on a nonempty marker returns text free of the
marker. -/
theorem read_until_no_marker {marker buf : List Char} {resp : ShellResponse}
    {pre rest : List Char} (hm : marker ≠ [])
    (h : read_until marker buf resp = .ok (pre, rest)) :
    containsMarker marker pre = false := by
  simp only [read_until] at h
  cases hf : findMarker marker (buf ++ resp.bytes) with
  | none => rw [hf] at h; cases h
  | some p =>
    rw [hf] at h
    cases h
    exact containsMarker_eq_false_iff.mpr (findMarker_take_eq_none hm hf)

/-- `read_until` on an empty buffer and a stream of the form
`out ++ marker ++ rest` captures exactly `out` and buffers exactly `rest`,
provided the marker is nonempty and does not occur in `out` (including
occurrences straddling into the trailing marker). -/
theorem read_until_scoped {m out rest : List Char} {closed : Bool}
    (hm : m ≠ []) (hno : containsMarker m (out ++ m.dropLast) = false) :
    read_until m [] ⟨out ++ m ++ rest, closed⟩ = .ok (out, rest) := by
  have h1 : (out ++ (m ++ rest)).take out.length = out := by
    rw [List.take_append_of_le_length (by simp), List.take_length]
  have h2 : (out ++ (m ++ rest)).drop (out.length + m.length) = rest := by
    rw [← List.append_assoc, ← List.length_append, List.drop_left]
  simp only [read_until, List.nil_append, List.append_assoc]
  rw [findMarker_append_marker hm hno]
  show Except.ok ((out ++ (m ++ rest)).take out.length,
    (out ++ (m ++ rest)).drop (out.length + m.length)) = _
  rw [h1, h2]

/- ### Lemmas about the runner loop -/

/-- Unfolding of the break-check schedule: one more pass adds one `interval`
plus that pass's execution time. -/
theorem relCheck_succ (cfg : RunConfig) :
    ∀ (s t iter : Nat),
    relCheck cfg t iter (s + 1)
      = relCheck cfg t iter s + cfg.interval + (cfg.exec (iter + s + 2)).dur := by
  intro s
  induction s with
  | zero =>
    intro t iter
    show relCheck cfg (t + (cfg.exec (iter + 1)).dur + cfg.interval) (iter + 1) 0 = _
    show t + (cfg.exec (iter + 1)).dur + cfg.interval + (cfg.exec (iter + 1 + 1)).dur = _
    have : iter + 1 + 1 = iter + 0 + 2 := by omega
    rw [this]
    rfl
  | succ s ih =>
    intro t iter
    show relCheck cfg (t + (cfg.exec (iter + 1)).dur + cfg.interval) (iter + 1) (s + 1) = _
    rw [ih]
    have : iter + 1 + s + 2 = iter + (s + 1) + 2 := by omega
    rw [this]
    rfl

/-- The break-check schedule is monotone in the pass count. -/
theorem relCheck_mono (cfg : RunConfig) {s s' : Nat} (t iter : Nat)
    (h : s ≤ s') : relCheck cfg t iter s ≤ relCheck cfg t iter s' := by
  induction s' with
  | zero =>
    have : s = 0 := by omega
    subst this
    exact Nat.le_refl _
  | succ s' ih =>
    rcases Nat.lt_or_ge s (s' + 1) with hlt | hge
    · calc relCheck cfg t iter s ≤ relCheck cfg t iter s' := ih (by omega)
        _ ≤ relCheck cfg t iter (s' + 1) := by
          rw [relCheck_succ]
          exact Nat.le_trans (Nat.le_add_right _ _) (Nat.le_add_right _ _)
    · have : s = s' + 1 := by omega
      subst this
      exact Nat.le_refl _

/-- Master lemma, normal exit: if the first `r` passes succeed without
triggering a break, the pass after them succeeds and triggers one, then the
loop performs exactly `r + 1` passes and ends normally. -/
theorem loopRun_breaks (cfg : RunConfig) :
    ∀ (r t iter fuel : Nat),
    r + 1 ≤ fuel →
    (∀ s, s ≤ r → (cfg.exec (iter + s + 1)).isOk = true) →
    (∀ s, s < r → cfg.shouldBreak (relCheck cfg t iter s) = false) →
    cfg.shouldBreak (relCheck cfg t iter r) = true →
    loopRun cfg fuel t iter = some (loopTraceOk cfg iter (r + 1), none) := by
  intro r
  induction r with
  | zero =>
    intro t iter fuel hfuel hok hno hyes
    obtain ⟨fuel, rfl⟩ : ∃ f, fuel = f + 1 := ⟨fuel - 1, by omega⟩
    cases hexe : cfg.exec (iter + 1) with
    | err e =>
      have h0 := hok 0 (Nat.le_refl 0)
      rw [Nat.add_zero, hexe] at h0
      simp [ExecOutcome.isOk] at h0
    | ok out dur =>
      have ht0 : relCheck cfg t iter 0 = t + dur := by
        show t + (cfg.exec (iter + 1)).dur = t + dur
        rw [hexe]
        rfl
      rw [ht0] at hyes
      simp only [loopRun, hexe, hyes, if_true]
      simp [loopTraceOk, passActs, hexe, ExecOutcome.out]
  | succ r ih =>
    intro t iter fuel hfuel hok hno hyes
    obtain ⟨fuel, rfl⟩ : ∃ f, fuel = f + 1 := ⟨fuel - 1, by omega⟩
    cases hexe : cfg.exec (iter + 1) with
    | err e =>
      have h0 := hok 0 (Nat.zero_le _)
      rw [Nat.add_zero, hexe] at h0
      simp [ExecOutcome.isOk] at h0
    | ok out dur =>
      have ht0 : relCheck cfg t iter 0 = t + dur := by
        show t + (cfg.exec (iter + 1)).dur = t + dur
        rw [hexe]
        rfl
      have hbr : cfg.shouldBreak (t + dur) = false := by
        rw [← ht0]
        exact hno 0 (Nat.succ_pos _)
      have hshift : ∀ s, relCheck cfg t iter (s + 1)
          = relCheck cfg (t + dur + cfg.interval) (iter + 1) s := by
        intro s
        show relCheck cfg (t + (cfg.exec (iter + 1)).dur + cfg.interval) (iter + 1) s = _
        rw [hexe]
        rfl
      have hrec := ih (t + dur + cfg.interval) (iter + 1) fuel (by omega)
        (fun s hs => by
          have := hok (s + 1) (by omega)
          rwa [show iter + (s + 1) + 1 = iter + 1 + s + 1 by omega] at this)
        (fun s hs => by
          rw [← hshift s]
          exact hno (s + 1) (by omega))
        (by
          rw [← hshift r]
          exact hyes)
      simp only [loopRun, hexe, hbr, Bool.false_eq_true, if_false, hrec]
      simp [loopTraceOk, passActs, hexe, ExecOutcome.out]

/-- Master lemma, fatal exit: if the first `r` passes succeed without
triggering a break and the next pass's `exec` fails, the loop ends with that
error after `r` successful passes and the failed `exec` call, emitting
nothing for the failed pass. -/
theorem loopRun_errs (cfg : RunConfig) {e : WatcherError} :
    ∀ (r t iter fuel : Nat),
    r + 1 ≤ fuel →
    (∀ s, s < r → (cfg.exec (iter + s + 1)).isOk = true) →
    (∀ s, s < r → cfg.shouldBreak (relCheck cfg t iter s) = false) →
    cfg.exec (iter + r + 1) = .err e →
    loopRun cfg fuel t iter = some (loopTraceErr cfg iter r, some e) := by
  intro r
  induction r with
  | zero =>
    intro t iter fuel hfuel hok hno herr
    obtain ⟨fuel, rfl⟩ : ∃ f, fuel = f + 1 := ⟨fuel - 1, by omega⟩
    rw [Nat.add_zero] at herr
    simp only [loopRun, herr]
    simp [loopTraceErr]
  | succ r ih =>
    intro t iter fuel hfuel hok hno herr
    obtain ⟨fuel, rfl⟩ : ∃ f, fuel = f + 1 := ⟨fuel - 1, by omega⟩
    cases hexe : cfg.exec (iter + 1) with
    | err e' =>
      have h0 := hok 0 (Nat.succ_pos _)
      rw [Nat.add_zero, hexe] at h0
      simp [ExecOutcome.isOk] at h0
    | ok out dur =>
      have ht0 : relCheck cfg t iter 0 = t + dur := by
        show t + (cfg.exec (iter + 1)).dur = t + dur
        rw [hexe]
        rfl
      have hbr : cfg.shouldBreak (t + dur) = false := by
        rw [← ht0]
        exact hno 0 (Nat.succ_pos _)
      have hshift : ∀ s, relCheck cfg t iter (s + 1)
          = relCheck cfg (t + dur + cfg.interval) (iter + 1) s := by
        intro s
        show relCheck cfg (t + (cfg.exec (iter + 1)).dur + cfg.interval) (iter + 1) s = _
        rw [hexe]
        rfl
      have hrec := ih (t + dur + cfg.interval) (iter + 1) fuel (by omega)
        (fun s hs => by
          have := hok (s + 1) (by omega)
          rwa [show iter + (s + 1) + 1 = iter + 1 + s + 1 by omega] at this)
        (fun s hs => by
          rw [← hshift s]
          exact hno (s + 1) (by omega))
        (by rwa [show iter + 1 + r + 1 = iter + (r + 1) + 1 by omega])
      simp only [loopRun, hexe, hbr, Bool.false_eq_true, if_false, hrec]
      simp [loopTraceErr, passActs, hexe, ExecOutcome.out]

/-- Iteration numbers of any loop trace count up by exactly one from
`iter + 1`, with no gaps and no repeats. -/
theorem loopRun_iterNumbers (cfg : RunConfig) :
    ∀ (fuel t iter : Nat) (acts : List RunnerAction) (ex : Option WatcherError),
    loopRun cfg fuel t iter = some (acts, ex) →
    iterNumbers acts = List.range' (iter + 1) (iterNumbers acts).length := by
  intro fuel
  induction fuel with
  | zero =>
    intro t iter acts ex h
    simp [loopRun] at h
  | succ fuel ih =>
    intro t iter acts ex h
    simp only [loopRun] at h
    cases hexe : cfg.exec (iter + 1) with
    | err e =>
      simp only [hexe] at h
      cases h
      simp [iterNumbers, iterNumberOf]
    | ok out dur =>
      simp only [hexe] at h
      by_cases hbr : cfg.shouldBreak (t + dur) = true
      · rw [if_pos hbr] at h
        cases h
        simp [iterNumbers, iterNumberOf, List.filterMap_cons, List.range']
      · rw [if_neg hbr] at h
        cases hrec : loopRun cfg fuel (t + dur + cfg.interval) (iter + 1) with
        | none => rw [hrec] at h; cases h
        | some p =>
          obtain ⟨rest, ex'⟩ := p
          rw [hrec] at h
          cases h
          have htail := ih (t + dur + cfg.interval) (iter + 1) rest ex hrec
          simp only [iterNumbers, List.filterMap_cons, List.filterMap_append,
            iterNumberOf] at htail ⊢
          rw [htail]
          simp [List.range'_succ, List.length_range']

/-- The loop body never sends `SetupResult` or `End` and never kills the
session: those actions happen only outside the loop. -/
theorem loopRun_no_external (cfg : RunConfig) :
    ∀ (fuel t iter : Nat) (acts : List RunnerAction) (ex : Option WatcherError),
    loopRun cfg fuel t iter = some (acts, ex) →
    ∀ a ∈ acts, loopExternal a = false := by
  intro fuel
  induction fuel with
  | zero =>
    intro t iter acts ex h
    simp [loopRun] at h
  | succ fuel ih =>
    intro t iter acts ex h
    simp only [loopRun] at h
    cases hexe : cfg.exec (iter + 1) with
    | err e =>
      simp only [hexe] at h
      cases h
      intro a ha
      simp at ha
      subst ha
      rfl
    | ok out dur =>
      simp only [hexe] at h
      by_cases hbr : cfg.shouldBreak (t + dur) = true
      · rw [if_pos hbr] at h
        cases h
        intro a ha
        simp at ha
        rcases ha with rfl | rfl <;> rfl
      · rw [if_neg hbr] at h
        cases hrec : loopRun cfg fuel (t + dur + cfg.interval) (iter + 1) with
        | none => rw [hrec] at h; cases h
        | some p =>
          obtain ⟨rest, ex'⟩ := p
          rw [hrec] at h
          cases h
          intro a ha
          simp only [List.cons_append, List.nil_append, List.mem_cons] at ha
          rcases ha with rfl | rfl | rfl | hmem
          · rfl
          · rfl
          · rfl
          · exact ih (t + dur + cfg.interval) (iter + 1) rest ex hrec a hmem

/-- Iteration numbers of `n` successful passes after iteration `iter` are
exactly `iter + 1, ..., iter + n`. -/
theorem iterNumbers_loopTraceOk (cfg : RunConfig) :
    ∀ (n iter : Nat),
    iterNumbers (loopTraceOk cfg iter n) = List.range' (iter + 1) n := by
  intro n
  induction n with
  | zero =>
    intro iter
    simp [loopTraceOk, iterNumbers]
  | succ n ih =>
    intro iter
    cases n with
    | zero =>
      simp [loopTraceOk, passActs, iterNumbers, iterNumberOf, List.range']
    | succ n' =>
      show iterNumbers (passActs cfg (iter + 1) ++ .sleep :: loopTraceOk cfg (iter + 1) (n' + 1))
        = _
      simp only [iterNumbers, List.filterMap_append, List.filterMap_cons,
        passActs, iterNumberOf]
      have := ih (iter + 1)
      simp only [iterNumbers] at this
      rw [this]
      simp [List.range'_succ]

/-- Exec call indices of `n` successful passes after iteration `iter` are
exactly `iter + 1, ..., iter + n`. -/
theorem execCalls_loopTraceOk (cfg : RunConfig) :
    ∀ (n iter : Nat),
    execCalls (loopTraceOk cfg iter n) = List.range' (iter + 1) n := by
  intro n
  induction n with
  | zero =>
    intro iter
    simp [loopTraceOk, execCalls]
  | succ n ih =>
    intro iter
    cases n with
    | zero =>
      simp [loopTraceOk, passActs, execCalls, execCallOf, List.range']
    | succ n' =>
      show execCalls (passActs cfg (iter + 1) ++ .sleep :: loopTraceOk cfg (iter + 1) (n' + 1))
        = _
      simp only [execCalls, List.filterMap_append, List.filterMap_cons,
        passActs, execCallOf]
      have := ih (iter + 1)
      simp only [execCalls] at this
      rw [this]
      simp [List.range'_succ]

/-- Iteration numbers of `r` successful passes followed by a failed `exec`:
only the successful passes emit events. -/
theorem iterNumbers_loopTraceErr (cfg : RunConfig) :
    ∀ (r iter : Nat),
    iterNumbers (loopTraceErr cfg iter r) = List.range' (iter + 1) r := by
  intro r
  induction r with
  | zero =>
    intro iter
    simp [loopTraceErr, iterNumbers, iterNumberOf]
  | succ r ih =>
    intro iter
    show iterNumbers (passActs cfg (iter + 1) ++ .sleep :: loopTraceErr cfg (iter + 1) r) = _
    simp only [iterNumbers, List.filterMap_append, List.filterMap_cons,
      passActs, iterNumberOf]
    have := ih (iter + 1)
    simp only [iterNumbers] at this
    rw [this]
    simp [List.range'_succ]

/-- Exec call indices of `r` successful passes followed by a failed `exec`:
the failed call appears exactly once, last. -/
theorem execCalls_loopTraceErr (cfg : RunConfig) :
    ∀ (r iter : Nat),
    execCalls (loopTraceErr cfg iter r) = List.range' (iter + 1) (r + 1) := by
  intro r
  induction r with
  | zero =>
    intro iter
    simp [loopTraceErr, execCalls, execCallOf, List.range']
  | succ r ih =>
    intro iter
    show execCalls (passActs cfg (iter + 1) ++ .sleep :: loopTraceErr cfg (iter + 1) r) = _
    simp only [execCalls, List.filterMap_append, List.filterMap_cons,
      passActs, execCallOf]
    have := ih (iter + 1)
    simp only [execCalls] at this
    rw [this]
    simp [List.range'_succ]

/-- Full-run characterization, normal exit: setup succeeds, `r + 1` loop
passes run, the last one triggers a break; then the `End` send and the
`kill` follow the loop trace, in that order. -/
theorem run_watcher_thread_breaks (cfg : RunConfig) {out0 : String} {d0 : Nat}
    (r fuel : Nat) (hfuel : r + 1 ≤ fuel)
    (h0 : cfg.exec 0 = .ok out0 d0)
    (hok : ∀ s, s ≤ r → (cfg.exec (s + 1)).isOk = true)
    (hno : ∀ s, s < r → cfg.shouldBreak (relCheck cfg 0 0 s) = false)
    (hyes : cfg.shouldBreak (relCheck cfg 0 0 r) = true) :
    run_watcher_thread cfg fuel
      = some ([.exec cfg.setupCommands 0, .emit (.SetupResult ⟨0, out0⟩)]
          ++ loopTraceOk cfg 0 (r + 1) ++ [.emit .End, .kill], none) := by
  have hloop := loopRun_breaks cfg r 0 0 fuel hfuel
    (fun s hs => by simpa using hok s hs) hno hyes
  simp only [run_watcher_thread, h0, hloop]

/-- Full-run characterization, fatal exit in the loop: setup succeeds, `r`
passes run without a break, the next pass's `exec` fails; the run ends with
that error, with no `End` send and no `kill`. -/
theorem run_watcher_thread_errs (cfg : RunConfig) {out0 : String} {d0 : Nat}
    {e : WatcherError} (r fuel : Nat) (hfuel : r + 1 ≤ fuel)
    (h0 : cfg.exec 0 = .ok out0 d0)
    (hok : ∀ s, s < r → (cfg.exec (s + 1)).isOk = true)
    (hno : ∀ s, s < r → cfg.shouldBreak (relCheck cfg 0 0 s) = false)
    (herr : cfg.exec (r + 1) = .err e) :
    run_watcher_thread cfg fuel
      = some ([.exec cfg.setupCommands 0, .emit (.SetupResult ⟨0, out0⟩)]
          ++ loopTraceErr cfg 0 r, some e) := by
  have hloop := loopRun_errs cfg r 0 0 fuel hfuel
    (fun s hs => by simpa using hok s hs) hno (by simpa using herr)
  simp only [run_watcher_thread, h0, hloop]

/-- Appending traces concatenates their iteration-number lists. -/
theorem iterNumbers_append (l1 l2 : List RunnerAction) :
    iterNumbers (l1 ++ l2) = iterNumbers l1 ++ iterNumbers l2 :=
  List.filterMap_append l1 l2 iterNumberOf

/-- Appending traces concatenates their exec-call lists. -/
theorem execCalls_append (l1 l2 : List RunnerAction) :
    execCalls (l1 ++ l2) = execCalls l1 ++ execCalls l2 :=
  List.filterMap_append l1 l2 execCallOf

/-- Appending traces adds their `End`-send counts. -/
theorem endEmits_append (l1 l2 : List RunnerAction) :
    endEmits (l1 ++ l2) = endEmits l1 + endEmits l2 := by
  unfold endEmits
  rw [List.filter_append, List.length_append]

/-- A trace without loop-external actions sends no `End`. -/
theorem endEmits_eq_zero {acts : List RunnerAction}
    (h : ∀ a ∈ acts, loopExternal a = false) : endEmits acts = 0 := by
  unfold endEmits
  rw [List.length_eq_zero, List.filter_eq_nil_iff]
  intro a ha hcontra
  rw [decide_eq_true_iff] at hcontra
  subst hcontra
  have := h _ ha
  simp [loopExternal] at this

/-- Claim C6: for every valid command with bounded output, `exec` returns the
text read from the combined output stream up to but not including the
sentinel, so the returned output never contains the sentinel substring; and
successive `exec` calls on the same session each capture exactly their own
command's output, with no residual output of a previous command leaking into
a later capture. -/
theorem claim_C6_exec_output_scoped :
    (∀ (w : Watcher) (cmd : String) (resp : ShellResponse)
       (out : List Char) (w' : Watcher),
       w.marker ≠ [] →
       exec_cmd_and_fetch_output w cmd resp = .ok (out, w') →
       containsMarker w.marker out = false) ∧
    (∀ (m out1 out2 : List Char) (cmd1 cmd2 : String) (c1 c2 : Bool),
       m ≠ [] →
       containsMarker m (out1 ++ m.dropLast) = false →
       containsMarker m (out2 ++ m.dropLast) = false →
       exec_cmd_and_fetch_output ⟨m, []⟩ cmd1 ⟨out1 ++ m, c1⟩
           = .ok (out1, ⟨m, []⟩) ∧
       exec_cmd_and_fetch_output ⟨m, []⟩ cmd2 ⟨out2 ++ m, c2⟩
           = .ok (out2, ⟨m, []⟩)) := by
  constructor
  · intro w cmd resp out w' hm hexec
    simp only [exec_cmd_and_fetch_output] at hexec
    cases hru : read_until w.marker w.buffer resp with
    | error e => rw [hru] at hexec; cases hexec
    | ok pr =>
      obtain ⟨cap, rest⟩ := pr
      rw [hru] at hexec
      cases hexec
      exact read_until_no_marker hm hru
  · intro m out1 out2 cmd1 cmd2 c1 c2 hm h1 h2
    have key : ∀ (out : List Char) (cmd : String) (c : Bool),
        containsMarker m (out ++ m.dropLast) = false →
        exec_cmd_and_fetch_output ⟨m, []⟩ cmd ⟨out ++ m, c⟩
          = .ok (out, ⟨m, []⟩) := by
      intro out cmd c hno
      have hscoped : read_until m [] ⟨out ++ m ++ [], c⟩ = .ok (out, []) :=
        read_until_scoped hm hno
      rw [List.append_nil] at hscoped
      simp only [exec_cmd_and_fetch_output, hscoped]
    exact ⟨key out1 cmd1 c1 h1, key out2 cmd2 c2 h2⟩

/-- Claim C7: in every completed run, the iteration numbers attached to
`IterationResult` events form the strictly increasing sequence
`1, 2, ..., N` with no gaps and no repeats (one increment per loop pass,
also for empty outputs), and iteration number `0` appears only on the
setup-phase `SetupResult` event. -/
theorem claim_C7_iteration_numbers (cfg : RunConfig) (fuel : Nat)
    (acts : List RunnerAction) (ex : Option WatcherError)
    (h : run_watcher_thread cfg fuel = some (acts, ex)) :
    iterNumbers acts = List.range' 1 (iterNumbers acts).length ∧
    ∀ res : WatcherIterationOutput,
      RunnerAction.emit (.SetupResult res) ∈ acts → res.iteration = 0 := by
  simp only [run_watcher_thread] at h
  cases h0 : cfg.exec 0 with
  | err e =>
    simp only [h0] at h
    cases h
    constructor
    · rfl
    · intro res hres
      simp at hres
  | ok out d =>
    simp only [h0] at h
    cases hl : loopRun cfg fuel 0 0 with
    | none => rw [hl] at h; cases h
    | some p =>
      obtain ⟨la, lex⟩ := p
      have hnums := loopRun_iterNumbers cfg fuel 0 0 la lex hl
      have hext := loopRun_no_external cfg fuel 0 0 la lex hl
      cases lex with
      | some e' =>
        rw [hl] at h
        cases h
        constructor
        · rw [iterNumbers_append]
          have hpre : iterNumbers [RunnerAction.exec cfg.setupCommands 0,
              RunnerAction.emit (.SetupResult ⟨0, out⟩)] = [] := rfl
          rw [hpre, List.nil_append]
          simpa using hnums
        · intro res hres
          rcases List.mem_append.mp hres with hin | hin
          · simp at hin
            rw [hin]
          · have := hext _ hin
            simp [loopExternal] at this
      | none =>
        rw [hl] at h
        cases h
        constructor
        · rw [iterNumbers_append, iterNumbers_append]
          have hpre : iterNumbers [RunnerAction.exec cfg.setupCommands 0,
              RunnerAction.emit (.SetupResult ⟨0, out⟩)] = [] := rfl
          have hpost : iterNumbers [RunnerAction.emit .End, RunnerAction.kill] = [] := rfl
          rw [hpre, hpost, List.nil_append, List.append_nil]
          simpa using hnums
        · intro res hres
          rcases List.mem_append.mp hres with hin | hin
          · rcases List.mem_append.mp hin with hin2 | hin2
            · simp at hin2
              rw [hin2]
            · have := hext _ hin2
              simp [loopExternal] at this
          · simp at hres hin

/-- With no cancellation and no watch duration, the loop never breaks. -/
theorem shouldBreak_false_of_none {cfg : RunConfig}
    (hc : cfg.cancelAt = none) (hD : cfg.watchDuration = none) :
    ∀ t, cfg.shouldBreak t = false := by
  intro t
  simp [RunConfig.shouldBreak, RunConfig.cancelSet, RunConfig.durationExceeded, hc, hD]

/-- Claim C8: when a loop pass's `exec` fails with `Timeout` or
`StreamClosed`, no `IterationResult` is emitted for that iteration, the
error is fatal to the run (no further `exec` call happens), and the failed
command is not retried: the run's `exec` calls are exactly the setup call and
calls `1, ..., k + 1`, each once, and the emitted iteration numbers stop at
`k`. -/
theorem claim_C8_fatal_exec_error (cfg : RunConfig) (k fuel : Nat)
    (e : WatcherError) (out0 : String) (d0 : Nat)
    (hfuel : k + 1 ≤ fuel)
    (h0 : cfg.exec 0 = .ok out0 d0)
    (hok : ∀ s, s < k → (cfg.exec (s + 1)).isOk = true)
    (hD : cfg.watchDuration = none) (hc : cfg.cancelAt = none)
    (herr : cfg.exec (k + 1) = .err e) :
    (run_watcher_thread cfg fuel).map
        (fun p => (iterNumbers p.1, execCalls p.1, p.2))
      = some (List.range' 1 k, List.range' 0 (k + 2), some e) := by
  have hrun := run_watcher_thread_errs cfg k fuel hfuel h0 hok
    (fun s _ => shouldBreak_false_of_none hc hD _) herr
  rw [hrun, Option.map_some']
  have hiter : iterNumbers ([RunnerAction.exec cfg.setupCommands 0,
      RunnerAction.emit (.SetupResult ⟨0, out0⟩)] ++ loopTraceErr cfg 0 k)
      = List.range' 1 k := by
    rw [iterNumbers_append]
    have hpre : iterNumbers [RunnerAction.exec cfg.setupCommands 0,
        RunnerAction.emit (.SetupResult ⟨0, out0⟩)] = [] := rfl
    rw [hpre, List.nil_append]
    simpa using iterNumbers_loopTraceErr cfg k 0
  have hexecs : execCalls ([RunnerAction.exec cfg.setupCommands 0,
      RunnerAction.emit (.SetupResult ⟨0, out0⟩)] ++ loopTraceErr cfg 0 k)
      = List.range' 0 (k + 2) := by
    rw [execCalls_append]
    have hpre : execCalls [RunnerAction.exec cfg.setupCommands 0,
        RunnerAction.emit (.SetupResult ⟨0, out0⟩)] = [0] := rfl
    rw [hpre]
    have := execCalls_loopTraceErr cfg k 0
    rw [Nat.zero_add] at this
    rw [this]
    rw [show k + 2 = k + 1 + 1 from rfl]
    simp [List.range'_succ]
  rw [hiter, hexecs]

/-- Number of `SetupResult` sends in a trace. -/
def setupEmits (acts : List RunnerAction) : Nat :=
  (acts.filter (fun a =>
    match a with
    | .emit (.SetupResult _) => true
    | _ => false)).length

/-- Claim C10: in the threaded runner the setup phase is unconditional: the
setup command text — the empty string when the user configured no setup
commands, as `QueryTui::new` always initializes it — is executed through
`exec` first, and exactly one `SetupResult` event carrying iteration `0` is
sent before any main-loop event. -/
theorem claim_C10_setup_unconditional :
    (∀ commands : Option String,
       (QueryTui.new commands).state.setup_commands = "") ∧
    (∀ (cfg : RunConfig) (fuel : Nat) (acts : List RunnerAction)
       (ex : Option WatcherError) (out : String) (d : Nat),
       cfg.exec 0 = .ok out d →
       run_watcher_thread cfg fuel = some (acts, ex) →
       acts.take 2 = [.exec cfg.setupCommands 0,
         .emit (.SetupResult ⟨0, out⟩)] ∧
       setupEmits acts = 1) := by
  constructor
  · intro commands
    rfl
  · intro cfg fuel acts ex out d h0 h
    simp only [run_watcher_thread, h0] at h
    cases hl : loopRun cfg fuel 0 0 with
    | none => rw [hl] at h; cases h
    | some p =>
      obtain ⟨la, lex⟩ := p
      have hext := loopRun_no_external cfg fuel 0 0 la lex hl
      have hsetup0 : ∀ l : List RunnerAction,
          (∀ a ∈ l, loopExternal a = false) → setupEmits l = 0 := by
        intro l hl0
        unfold setupEmits
        rw [List.length_eq_zero, List.filter_eq_nil_iff]
        intro a ha hcontra
        have := hl0 a ha
        cases a with
        | emit ev =>
          cases ev with
          | SetupResult r => simp [loopExternal] at this
          | IterationResult r => cases hcontra
          | End => cases hcontra
        | exec c i => cases hcontra
        | sleep => cases hcontra
        | kill => cases hcontra
      have hsetup_app : ∀ l1 l2 : List RunnerAction,
          setupEmits (l1 ++ l2) = setupEmits l1 + setupEmits l2 := by
        intro l1 l2
        unfold setupEmits
        rw [List.filter_append, List.length_append]
      cases lex with
      | some e' =>
        rw [hl] at h
        cases h
        refine ⟨rfl, ?_⟩
        rw [hsetup_app]
        rw [hsetup0 la hext]
        rfl
      | none =>
        rw [hl] at h
        cases h
        constructor
        · rw [List.append_assoc]
          rfl
        · rw [List.append_assoc, hsetup_app, hsetup_app]
          rw [hsetup0 la hext]
          rfl

/-- Iteration numbers of a full normal-exit run trace with `n` loop
passes. -/
theorem iterNumbers_run_ok (cfg : RunConfig) (s0 out0 : String) (n : Nat) :
    iterNumbers ([RunnerAction.exec s0 0,
        RunnerAction.emit (.SetupResult ⟨0, out0⟩)]
      ++ loopTraceOk cfg 0 n ++ [RunnerAction.emit .End, RunnerAction.kill])
      = List.range' 1 n := by
  rw [iterNumbers_append, iterNumbers_append]
  have hpre : iterNumbers [RunnerAction.exec s0 0,
      RunnerAction.emit (.SetupResult ⟨0, out0⟩)] = [] := rfl
  have hpost : iterNumbers [RunnerAction.emit .End, RunnerAction.kill] = [] := rfl
  rw [hpre, hpost, List.nil_append, List.append_nil]
  simpa using iterNumbers_loopTraceOk cfg n 0

/-- A run whose `exec` calls all succeed has a successful setup `exec`. -/
theorem exec_zero_ok {cfg : RunConfig}
    (hok : ∀ i, (cfg.exec i).isOk = true) :
    ∃ o d, cfg.exec 0 = .ok o d := by
  cases h : cfg.exec 0 with
  | ok o d => exact ⟨o, d, rfl⟩
  | err e =>
    have := hok 0
    rw [h] at this
    simp [ExecOutcome.isOk] at this

/-- Claim C4 (amended): if the cancellation flag is set during the sleep
after loop pass `k + 1` (between that pass's break check and the next
pass's `exec`), then the runner performs exactly one further pass `k + 2` —
its `exec` runs and its `IterationResult` is emitted, because the flag is
checked only after each `exec` — and then terminates normally: the emitted
iteration numbers are exactly `1, ..., k + 2`, with no pass `k + 3`. -/
theorem claim_C4_amended (cfg : RunConfig) (k fuel c : Nat)
    (hfuel : k + 2 ≤ fuel)
    (hok : ∀ i, (cfg.exec i).isOk = true)
    (hD : cfg.watchDuration = none)
    (hc : cfg.cancelAt = some c)
    (hlow : relCheck cfg 0 0 k < c)
    (hhigh : c ≤ relCheck cfg 0 0 k + cfg.interval) :
    (run_watcher_thread cfg fuel).map (fun p => (iterNumbers p.1, p.2))
      = some (List.range' 1 (k + 2), none) := by
  obtain ⟨out0, d0, h0⟩ := exec_zero_ok hok
  have hcs : ∀ t, cfg.cancelSet t = decide (c ≤ t) := fun t => by
    simp [RunConfig.cancelSet, hc]
  have hdx : ∀ t, cfg.durationExceeded t = false := fun t => by
    simp [RunConfig.durationExceeded, hD]
  have hno : ∀ s, s < k + 1 → cfg.shouldBreak (relCheck cfg 0 0 s) = false := by
    intro s hs
    have hmono := relCheck_mono cfg 0 0 (show s ≤ k by omega)
    have hlt : ¬ c ≤ relCheck cfg 0 0 s := by omega
    simp [RunConfig.shouldBreak, hcs, hdx, hlt]
  have hyes : cfg.shouldBreak (relCheck cfg 0 0 (k + 1)) = true := by
    have hle : c ≤ relCheck cfg 0 0 (k + 1) := by
      rw [relCheck_succ]
      omega
    simp [RunConfig.shouldBreak, hcs, hle]
  have hrun := run_watcher_thread_breaks cfg (k + 1) fuel hfuel h0
    (fun s _ => hok (s + 1)) hno hyes
  rw [hrun, Option.map_some']
  rw [iterNumbers_run_ok]

/-- Claim C5 (amended): with `watchDuration = D` strictly below
`interval = I` and no errors or cancellation, the run completes the setup
phase and at least one main-loop pass; the duration check runs only after a
pass completes, so the run performs exactly one pass when the first `exec`
alone takes longer than `D`, and otherwise exactly two passes (the check
after pass one sees elapsed time at most `D`, sleeps a full `interval > D`,
and only the check after pass two stops the run). -/
theorem claim_C5_amended (cfg : RunConfig) (fuel D : Nat)
    (hfuel : 2 ≤ fuel)
    (hok : ∀ i, (cfg.exec i).isOk = true)
    (hD : cfg.watchDuration = some D)
    (hc : cfg.cancelAt = none)
    (hDI : D < cfg.interval) :
    (run_watcher_thread cfg fuel).map (fun p => (iterNumbers p.1, p.2))
      = some (List.range' 1 (if D < (cfg.exec 1).dur then 1 else 2), none) := by
  obtain ⟨out0, d0, h0⟩ := exec_zero_ok hok
  have hcs : ∀ t, cfg.cancelSet t = false := fun t => by
    simp [RunConfig.cancelSet, hc]
  have hdx : ∀ t, cfg.durationExceeded t = decide (D < t) := fun t => by
    simp [RunConfig.durationExceeded, hD]
  have hrc0 : relCheck cfg 0 0 0 = (cfg.exec 1).dur := by
    show 0 + (cfg.exec (0 + 1)).dur = _
    rw [Nat.zero_add, Nat.zero_add]
  by_cases hdur : D < (cfg.exec 1).dur
  · have hyes : cfg.shouldBreak (relCheck cfg 0 0 0) = true := by
      rw [hrc0]
      simp [RunConfig.shouldBreak, hcs, hdx, hdur]
    have hrun := run_watcher_thread_breaks cfg 0 fuel (by omega) h0
      (fun s _ => hok (s + 1)) (fun s hs => by omega) hyes
    rw [hrun, Option.map_some', iterNumbers_run_ok, if_pos hdur]
  · have hno : ∀ s, s < 1 → cfg.shouldBreak (relCheck cfg 0 0 s) = false := by
      intro s hs
      have : s = 0 := by omega
      subst this
      rw [hrc0]
      simp [RunConfig.shouldBreak, hcs, hdx, hdur]
    have hyes : cfg.shouldBreak (relCheck cfg 0 0 1) = true := by
      have hle : D < relCheck cfg 0 0 1 := by
        rw [relCheck_succ, hrc0]
        omega
      simp [RunConfig.shouldBreak, hcs, hdx, hle]
    have hrun := run_watcher_thread_breaks cfg 1 fuel hfuel h0
      (fun s _ => hok (s + 1)) hno hyes
    rw [hrun, Option.map_some', iterNumbers_run_ok, if_neg hdur]

/-- Claim C3 (amended): on every run whose loop exits normally (cancellation
or watch-duration expiry) exactly one `End` event is sent, it is the last
event sent, and the `watcher.kill()` call comes immediately after the `End`
send — the send precedes the kill, not the other way around.  On runs that
die of a fatal `exec` error, no `End` event is sent at all. -/
theorem claim_C3_amended (cfg : RunConfig) (fuel : Nat)
    (acts : List RunnerAction) (res : Option WatcherError)
    (h : run_watcher_thread cfg fuel = some (acts, res)) :
    (res = none →
      acts.drop (acts.length - 2) = [.emit .End, .kill] ∧
      endEmits (acts.take (acts.length - 2)) = 0) ∧
    (∀ e, res = some e →
      endEmits acts = 0 ∧ RunnerAction.kill ∉ acts) := by
  simp only [run_watcher_thread] at h
  cases h0 : cfg.exec 0 with
  | err e0 =>
    simp only [h0] at h
    cases h
    constructor
    · intro hnone
      cases hnone
    · intro e he
      cases he
      constructor
      · rfl
      · simp
  | ok out d =>
    simp only [h0] at h
    cases hl : loopRun cfg fuel 0 0 with
    | none => rw [hl] at h; cases h
    | some p =>
      obtain ⟨la, lex⟩ := p
      have hext := loopRun_no_external cfg fuel 0 0 la lex hl
      have hsetupEnd : endEmits [RunnerAction.exec cfg.setupCommands 0,
          RunnerAction.emit (.SetupResult ⟨0, out⟩)] = 0 := rfl
      cases lex with
      | some e' =>
        rw [hl] at h
        cases h
        constructor
        · intro hnone
          cases hnone
        · intro e he
          cases he
          constructor
          · rw [endEmits_append, hsetupEnd, endEmits_eq_zero hext]
          · intro hmem
            rcases List.mem_append.mp hmem with hin | hin
            · simp at hin
            · have := hext _ hin
              simp [loopExternal] at this
      | none =>
        rw [hl] at h
        cases h
        constructor
        · intro hnone
          set L := [RunnerAction.exec cfg.setupCommands 0,
            RunnerAction.emit (.SetupResult ⟨0, out⟩)] ++ la with hL
          have hlen : (L ++ [RunnerAction.emit .End, RunnerAction.kill]).length - 2
              = L.length := by
            rw [List.length_append]
            simp
          rw [hlen, List.drop_left, List.take_left]
          refine ⟨rfl, ?_⟩
          rw [hL, endEmits_append, hsetupEnd, endEmits_eq_zero hext]
        · intro e he
          cases he

/-- Claim C2 (amended): the sentinel is a single program-wide value: every
successfully constructed shell session carries the same global
`CMD_END_MARKER` (the lazily initialized 100-character alphanumeric string
derived from the fixed seed `5`) as its marker; the token is not generated
fresh per session and is reused across sessions. -/
theorem claim_C2_amended (spawnFails : Bool) (initResp : ShellResponse)
    (w : Watcher) (h : Watcher.new spawnFails initResp = .ok w) :
    w.marker = CMD_END_MARKER := by
  simp only [Watcher.new] at h
  split at h
  · cases h
  · simp only [exec_cmd_and_fetch_output] at h
    cases hru : read_until CMD_END_MARKER [] initResp with
    | error e =>
      simp only [hru] at h
      cases h
    | ok pr =>
      obtain ⟨cap, rest⟩ := pr
      simp only [hru] at h
      cases h
      rfl

/-- Claim C9 (amended): `Watcher::new` spawns the shell with merged
stdout/stderr, piped stdin and stdout, the inherited environment extended
with the normalized locale `LC_ALL=C`, and a detached subprocess; it fails
with `SpawnError` exactly when the subprocess cannot be created; when
creation succeeds it runs the fixed initialization sequence through the same
`exec_cmd_and_fetch_output` path as every later command and returns a usable
session exactly when that initialization `exec` succeeds, otherwise
propagating the initialization error (`Timeout` or `StreamClosed`) instead
of returning a session. -/
theorem claim_C9_amended :
    (∀ env : List (String × String),
       watcherPopenConfig env
         = { stdout := .Pipe, stderr := .Merge, stdin := .Pipe,
             env := env ++ [("LC_ALL", "C")], detached := true }) ∧
    (∀ (sf : Bool) (r : ShellResponse),
       Watcher.new sf r = .error .SpawnError ↔ sf = true) ∧
    (∀ r : ShellResponse,
       Watcher.new false r
         = (match exec_cmd_and_fetch_output ⟨CMD_END_MARKER, []⟩
              INIT_COMMANDS r with
            | .error e => .error e
            | .ok (_, w) => .ok w)) ∧
    (∀ r : ShellResponse,
       (Watcher.new false r).toOption.isSome
         = containsMarker CMD_END_MARKER r.bytes) := by
  refine ⟨fun env => rfl, ?_, fun r => rfl, ?_⟩
  · intro sf r
    cases sf with
    | true => simp [Watcher.new]
    | false =>
      simp only [Watcher.new, Bool.false_eq_true, if_false,
        exec_cmd_and_fetch_output]
      constructor
      · intro h
        exfalso
        cases hru : read_until CMD_END_MARKER [] r with
        | error e =>
          rw [hru] at h
          cases h
          simp only [read_until, List.nil_append] at hru
          cases hfm : findMarker CMD_END_MARKER r.bytes with
          | some p => rw [hfm] at hru; cases hru
          | none =>
            rw [hfm] at hru
            cases hcl : r.closed with
            | true => rw [hcl] at hru; simp at hru
            | false => rw [hcl] at hru; simp at hru
        | ok pr =>
          obtain ⟨cap, rest⟩ := pr
          rw [hru] at h
          cases h
      · intro h
        cases h
  · intro r
    simp only [Watcher.new, Bool.false_eq_true, if_false,
      exec_cmd_and_fetch_output]
    cases hru : read_until CMD_END_MARKER [] r with
    | error e =>
      simp only [hru]
      simp only [read_until, List.nil_append] at hru
      cases hfm : findMarker CMD_END_MARKER r.bytes with
      | some p => rw [hfm] at hru; cases hru
      | none =>
        simp [containsMarker, hfm, Except.toOption]
    | ok pr =>
      obtain ⟨cap, rest⟩ := pr
      simp only [hru]
      simp only [read_until, List.nil_append] at hru
      cases hfm : findMarker CMD_END_MARKER r.bytes with
      | none =>
        rw [hfm] at hru
        cases hcl : r.closed with
        | true => rw [hcl] at hru; cases hru
        | false => rw [hcl] at hru; cases hru
      | some p =>
        simp [containsMarker, hfm, Except.toOption]

/- ### Concrete runs used by counterexamples and witnesses -/

/-- Run with instantaneous `echo`-style commands, interval 10ms, no watch
duration, cancellation flag set at t = 5ms — during the sleep after loop
pass 1 (whose break check happened at t = 0). -/
def cfgCancelDuringSleep : RunConfig :=
  { setupCommands := ""
    mainCommands := "echo hi"
    interval := 10
    watchDuration := none
    cancelAt := some 5
    exec := fun _ => .ok "hi\n" 0 }

/-- Run with `watchDuration = 5ms` strictly below `interval = 10ms` and
instantaneous commands. -/
def cfgShortDuration : RunConfig :=
  { setupCommands := ""
    mainCommands := "m"
    interval := 10
    watchDuration := some 5
    cancelAt := none
    exec := fun _ => .ok "o" 0 }

/-- Run whose first main-loop `exec` fails with `Timeout` (setup
succeeds). -/
def cfgLoopErr : RunConfig :=
  { setupCommands := ""
    mainCommands := "m"
    interval := 10
    watchDuration := none
    cancelAt := none
    exec := fun i => if i = 0 then .ok "" 0 else .err .Timeout }

/-- Run whose second main-loop `exec` fails with `StreamClosed` (setup and
pass 1 succeed, no break before the failure). -/
def cfgErrAtTwo : RunConfig :=
  { setupCommands := ""
    mainCommands := "m"
    interval := 10
    watchDuration := none
    cancelAt := none
    exec := fun i => if i ≤ 1 then .ok "o" 0 else .err .StreamClosed }

/-- Run cancelled at t = 0: the loop breaks right after pass 1. -/
def cfgCancelImmediately : RunConfig :=
  { setupCommands := ""
    mainCommands := "m"
    interval := 10
    watchDuration := none
    cancelAt := some 0
    exec := fun _ => .ok "o" 0 }

/-- The trace of `cfgCancelImmediately` (setup, one pass, `End`, kill). -/
def runActsCancelNow : List RunnerAction :=
  [.exec "" 0, .emit (.SetupResult ⟨0, "o"⟩), .exec "m" 1,
   .emit (.IterationResult ⟨1, "o"⟩), .emit .End, .kill]

/-- `watcher.rs` run whose first loop `exec` fails with `Timeout`, no setup
commands configured. -/
def mainCfgLoopErr : MainConfig :=
  { setupCmds := none
    command := "m"
    interval := 10
    watchDuration := none
    interruptAt := none
    exec := fun _ => .err .Timeout }

/-- Claim C1: the kill is NOT invoked on fatal-error paths.  In the threaded
runner, a `Timeout` on a loop `exec` ends the run (`.unwrap()` panic) with
no `kill` action in the trace (and no `End` event); in the `watcher.rs`
binary the error propagates out of `main` via `?`, also skipping
`watcher.kill()`. -/
theorem claim_C1_kill_skipped_on_error :
    ((run_watcher_thread cfgLoopErr 2).map
        (fun p => (decide (RunnerAction.kill ∈ p.1), endEmits p.1, p.2))
      = some (false, 0, some .Timeout)) ∧
    ((mainRun mainCfgLoopErr 2).map
        (fun p => (decide (RunnerAction.kill ∈ p.1), p.2))
      = some (false, some .Timeout)) := by
  exact ⟨by decide, by decide⟩

/-- Claim C2 (counterexample): two distinct `Watcher` sessions (constructed
from different shell histories, hence unequal as states) carry the very same
sentinel marker — the global `CMD_END_MARKER` — refuting that the token is
generated fresh per session and never shared. -/
theorem claim_C2_counterexample :
    Watcher.new false ⟨CMD_END_MARKER, false⟩
      = .ok ⟨CMD_END_MARKER, []⟩ ∧
    Watcher.new false ⟨'x' :: CMD_END_MARKER ++ ['y'], false⟩
      = .ok ⟨CMD_END_MARKER, ['y']⟩ ∧
    (⟨CMD_END_MARKER, []⟩ : Watcher) ≠ ⟨CMD_END_MARKER, ['y']⟩ ∧
    (⟨CMD_END_MARKER, []⟩ : Watcher).marker
      = (⟨CMD_END_MARKER, ['y']⟩ : Watcher).marker := by
  refine ⟨by decide, by decide, by decide, rfl⟩

/-- Claim C2 (amended, witness): a concretely constructed session carries the
global marker. -/
theorem claim_C2_amended_witness :
    Watcher.new false ⟨CMD_END_MARKER, false⟩ = .ok ⟨CMD_END_MARKER, []⟩ ∧
    (⟨CMD_END_MARKER, []⟩ : Watcher).marker = CMD_END_MARKER :=
  ⟨by decide,
   claim_C2_amended false ⟨CMD_END_MARKER, false⟩ ⟨CMD_END_MARKER, []⟩ (by decide)⟩

/-- Claim C3 (counterexample): in a normal run the single `kill` comes after
the `End` send (the claim asserts kill precedes the `Terminated` emission),
and a run with a fatal loop error emits no `End` at all (the claim asserts
exactly one per run). -/
theorem claim_C3_counterexample :
    run_watcher_thread cfgCancelImmediately 2 = some (runActsCancelNow, none) ∧
    runActsCancelNow = [.exec "" 0, .emit (.SetupResult ⟨0, "o"⟩), .exec "m" 1,
      .emit (.IterationResult ⟨1, "o"⟩), .emit .End] ++ [.kill] ∧
    RunnerAction.kill ∉ [RunnerAction.exec "" 0,
      RunnerAction.emit (.SetupResult ⟨0, "o"⟩), RunnerAction.exec "m" 1,
      RunnerAction.emit (.IterationResult ⟨1, "o"⟩), RunnerAction.emit .End] ∧
    (run_watcher_thread cfgLoopErr 2).map (fun p => (endEmits p.1, p.2))
      = some (0, some .Timeout) := by
  refine ⟨by decide, by decide, by decide, by decide⟩

/-- Claim C3 (amended, witness). -/
theorem claim_C3_amended_witness :
    runActsCancelNow.drop (runActsCancelNow.length - 2)
      = [RunnerAction.emit .End, RunnerAction.kill] ∧
    endEmits (runActsCancelNow.take (runActsCancelNow.length - 2)) = 0 :=
  (claim_C3_amended cfgCancelImmediately 2 runActsCancelNow none (by decide)).1 rfl

/-- Claim C4 (counterexample): with the cancellation flag set at t = 5,
during the sleep after pass 1 (break check at t = 0, sleep until t = 10),
the runner still performs the `exec` of iteration 2 and emits
`IterationResult 2` before terminating — the claim asserts no iteration
`k + 1 = 2` is executed and no event with number above 1 is emitted. -/
theorem claim_C4_counterexample :
    cfgCancelDuringSleep.cancelAt = some 5 ∧
    cfgCancelDuringSleep.interval = 10 ∧
    relCheck cfgCancelDuringSleep 0 0 0 = 0 ∧
    (run_watcher_thread cfgCancelDuringSleep 2).map
        (fun p => (iterNumbers p.1, execCalls p.1, p.2))
      = some ([1, 2], [0, 1, 2], none) := by
  refine ⟨rfl, rfl, rfl, by decide⟩

/-- Claim C4 (amended, witness): flag set at t = 5 during pass 1's sleep,
iterations 1 and 2 run, nothing further. -/
theorem claim_C4_amended_witness :
    (run_watcher_thread cfgCancelDuringSleep 2).map
        (fun p => (iterNumbers p.1, p.2))
      = some (List.range' 1 2, none) :=
  claim_C4_amended cfgCancelDuringSleep 0 2 5 (by decide) (fun _ => rfl)
    rfl rfl (by decide) (by decide)

/-- Claim C5 (counterexample): with `watchDuration = 5 < interval = 10` and
instantaneous commands the error-free run performs two main-loop iterations,
not exactly one as claimed: the check after pass 1 sees elapsed time 0 which
does not exceed 5, so the loop sleeps and runs pass 2. -/
theorem claim_C5_counterexample :
    cfgShortDuration.watchDuration = some 5 ∧
    cfgShortDuration.interval = 10 ∧
    (run_watcher_thread cfgShortDuration 2).map
        (fun p => (iterNumbers p.1, p.2))
      = some ([1, 2], none) := by
  refine ⟨rfl, rfl, by decide⟩

/-- Claim C5 (amended, witness): first exec takes 0ms which does not exceed
`D = 5`, so exactly two passes run. -/
theorem claim_C5_amended_witness :
    (run_watcher_thread cfgShortDuration 2).map
        (fun p => (iterNumbers p.1, p.2))
      = some (List.range' 1
          (if 5 < (cfgShortDuration.exec 1).dur then 1 else 2), none) :=
  claim_C5_amended cfgShortDuration 2 5 (by decide) (fun _ => rfl)
    rfl rfl (by decide)

/-- Claim C6 (witness): a concrete session with marker `XYZ`, two
consecutive captures. -/
theorem claim_C6_witness :
    containsMarker ['X', 'Y', 'Z'] ['a'] = false ∧
    (exec_cmd_and_fetch_output ⟨['X', 'Y', 'Z'], []⟩ "c1"
        ⟨['a'] ++ ['X', 'Y', 'Z'], false⟩
        = .ok (['a'], ⟨['X', 'Y', 'Z'], []⟩) ∧
     exec_cmd_and_fetch_output ⟨['X', 'Y', 'Z'], []⟩ "c2"
        ⟨['b'] ++ ['X', 'Y', 'Z'], false⟩
        = .ok (['b'], ⟨['X', 'Y', 'Z'], []⟩)) := by
  have h2 := claim_C6_exec_output_scoped.2 ['X', 'Y', 'Z'] ['a'] ['b']
    "c1" "c2" false false (by decide) (by decide) (by decide)
  exact ⟨claim_C6_exec_output_scoped.1 ⟨['X', 'Y', 'Z'], []⟩ "c1"
      ⟨['a'] ++ ['X', 'Y', 'Z'], false⟩ ['a'] ⟨['X', 'Y', 'Z'], []⟩
      (by decide) h2.1, h2⟩

/-- Claim C7 (witness): the cancelled run's iteration numbers. -/
theorem claim_C7_witness :
    iterNumbers runActsCancelNow
      = List.range' 1 (iterNumbers runActsCancelNow).length :=
  (claim_C7_iteration_numbers cfgCancelImmediately 2 runActsCancelNow none
    (by decide)).1

/-- Claim C8 (witness): pass 1 succeeds, pass 2 dies of `StreamClosed`: one
`IterationResult`, exec calls 0, 1, 2, fatal result. -/
theorem claim_C8_witness :
    (run_watcher_thread cfgErrAtTwo 3).map
        (fun p => (iterNumbers p.1, execCalls p.1, p.2))
      = some (List.range' 1 1, List.range' 0 3, some .StreamClosed) :=
  claim_C8_fatal_exec_error cfgErrAtTwo 1 3 .StreamClosed "o" 0 (by decide)
    rfl
    (fun s hs => by
      have : s = 0 := by omega
      subst this
      rfl)
    rfl rfl (by decide)

/-- Claim C10 (witness): the cancelled run's trace starts with the setup
exec (empty command text) and its single `SetupResult`. -/
theorem claim_C10_witness :
    runActsCancelNow.take 2 = [RunnerAction.exec cfgCancelImmediately.setupCommands 0,
      RunnerAction.emit (.SetupResult ⟨0, "o"⟩)] ∧
    setupEmits runActsCancelNow = 1 :=
  claim_C10_setup_unconditional.2 cfgCancelImmediately 2 runActsCancelNow
    none "o" 0 rfl (by decide)

/-- Claim C9 (counterexample): with a successfully created subprocess whose
initialization `exec` produces no sentinel, `Watcher::new` fails with
`Timeout` — a non-`SpawnError` failure with no usable session even though
the subprocess could be created, refuting "otherwise returns a usable
session". -/
theorem claim_C9_counterexample :
    Watcher.new false ⟨[], false⟩ = .error .Timeout ∧
    WatcherError.Timeout ≠ WatcherError.SpawnError := by
  exact ⟨by decide, by decide⟩
